import Mathlib

/-!
Shallow embedding of the token-transfer-api repository: the resolver layer
(`hashAddress`, `lockWallets`, `addWallet`, `getTokenBalance`,
`updateBalances`, `validateTokenAmount`, `Transfer`, the `Wallet` query)
over the storage model of `init.sql` (tables keyed by a TEXT address with a
non-negative NUMERIC(28,18) balance).  Balances and amounts are exact
rationals; the transaction discipline is modelled by threading a
transaction-local copy of the database and publishing it only on commit.
Environmental store failures (failed Exec/Query/Commit calls) are injected
through an explicit failure schedule.
-/

namespace TokenTransfer

/-- shopspring `decimal.Decimal`: an arbitrary-precision integer
coefficient `value` and an int32 exponent `exp`; the represented number is
`value * 10 ^ exp`. -/
structure Dec where
  value : Int
  exp : Int
deriving DecidableEq

/-- Powers of ten (structural, so concrete instances reduce in the kernel). -/
def pow10 : Nat → Nat
  | 0 => 1
  | n + 1 => 10 * pow10 n

/-- The exact rational value of a decimal.  NUMERIC arithmetic in the
store and big.Rat arithmetic in the resolver are both exact, so one value
type serves for both. -/
def Dec.toRat (d : Dec) : Rat :=
  if 0 ≤ d.exp then ((d.value * (pow10 d.exp.toNat : Int) : Int) : Rat)
  else (d.value : Rat) / ((pow10 (-d.exp).toNat : Nat) : Rat)

/-- Numeric value of a list of decimal digit characters. -/
def digitsVal (l : List Char) : Nat :=
  l.foldl (fun n c => 10 * n + (c.toNat - 48)) 0

/-- strconv.ParseInt / big.Int.SetString on base-10 input: an optional
sign followed by one or more digits. -/
def parseSignedInt : List Char → Option Int
  | [] => none
  | '+' :: rest =>
    if rest ≠ [] ∧ rest.all Char.isDigit then some (digitsVal rest) else none
  | '-' :: rest =>
    if rest ≠ [] ∧ rest.all Char.isDigit then some (-(digitsVal rest : Int)) else none
  | l => if l.all Char.isDigit then some (digitsVal l) else none

/-- shopspring `decimal.NewFromString`: an optional scientific-notation
suffix after the first `e`/`E` (whose value must fit in an int32, as
enforced by `strconv.ParseInt(…, 10, 32)`), at most one decimal point, and
a signed base-10 coefficient; the final exponent must also fit in an
int32. -/
def NewFromString (s : String) : Option Dec :=
  match s.data.span (fun c => !(c == 'e' || c == 'E')) with
  | (mantissa, expTail) =>
    match (match expTail with
           | [] => some (0 : Int)
           | _ :: rest =>
             match parseSignedInt rest with
             | some e => if -(2 ^ 31) ≤ e ∧ e < 2 ^ 31 then some e else none
             | none => none) with
    | none => none
    | some e =>
      match mantissa.span (fun c => !(c == '.')) with
      | (intPart, fracTail) =>
        match fracTail with
        | [] =>
          match parseSignedInt mantissa with
          | some v => some ⟨v, e⟩
          | none => none
        | _ :: frac =>
          if frac.contains '.' then none
          else
            match parseSignedInt (intPart ++ frac) with
            | some v =>
              if -(2 ^ 31) ≤ e - (frac.length : Int) ∧ e - (frac.length : Int) < 2 ^ 31 then
                some ⟨v, e - (frac.length : Int)⟩
              else none
            | none => none

/-- The distinct error returns of the resolver layer.  Driver-level
failures of individual statements surface as `storeFailed`; `noRows` is
sql.ErrNoRows; the remaining constructors correspond to the error messages
built in the source. -/
inductive Err where
  | beginFailed
  | storeFailed
  | invalidDecimalAmount
  | nonPositiveAmount
  | tooManyDecimalPlaces
  | tooManyDigits
  | noRows
  | invalidTransferAmount
  | insufficientBalance
  | checkViolation
  | commitFailed
deriving DecidableEq

/-- `validateTokenAmount` (resolver source, lines 71-92): parse with
decimal.NewFromString, then reject non-positive values
(`Cmp(decimal.Zero) <= 0`), more than 18 decimal places
(`Exponent() < -18`), and coefficients longer than 28 digits
(`len(coeff.String()) > 28`; the coefficient is positive past the first
check, so `natAbs` matches Go's rendering). -/
def validateTokenAmount (amount : String) : Except Err Unit :=
  match NewFromString amount with
  | none => .error .invalidDecimalAmount
  | some d =>
    if d.toRat ≤ 0 then .error .nonPositiveAmount
    else if d.exp < -18 then .error .tooManyDecimalPlaces
    else if 28 < (Nat.toDigits 10 d.value.natAbs).length then .error .tooManyDigits
    else .ok ()

/-- A wallets table (init.sql): TEXT primary key `address` to
NUMERIC(28,18) `token_balance`; absent keys have no row. -/
abbrev Table := String → Option Rat

/-- The database: one table per name (init.sql creates `wallets` and
`test_wallets`). -/
abbrev DB := String → Table

/-- Overwrite (or create) one row of one table. -/
def setBal (db : DB) (tname addr : String) (v : Rat) : DB :=
  fun t a => if t = tname ∧ a = addr then some v else db t a

/-- The committed balance stored in the production `wallets` table. -/
def walletBalance (db : DB) (addr : String) : Option Rat := db "wallets" addr

/-- SQL statements issued against the store, with the table they target. -/
inductive Event where
  | lockEv (key : Int)
  | readEv (tname addr : String)
  | insertEv (tname addr : String)
  | updateEv (tname addr : String)
deriving DecidableEq

/-- The table an event touches (`none` for advisory locks, which are not
table-scoped). -/
def Event.tableOf : Event → Option String
  | .lockEv _ => none
  | .readEv t _ => some t
  | .insertEv t _ => some t
  | .updateEv t _ => some t

/-- `hashAddress` (lines 17-21): 64-bit FNV-1 of the address bytes,
reinterpreted as a signed int64.  Addresses in scope are ASCII, so code
points and UTF-8 bytes coincide. -/
def hashAddress (address : String) : Int :=
  match address.data.foldl
      (fun (h : Nat) c => (h * 1099511628211 % 2 ^ 64) ^^^ c.toNat)
      (14695981039346656037 : Nat) with
  | h => if h < 2 ^ 63 then (h : Int) else (h : Int) - 2 ^ 64

/-- `Resolver` (graph/resolver.go): dependency injection for the app;
`walletTable` is the configured name of the DB table. -/
structure Resolver where
  walletTable : String

/-- `addWallet` (lines 47-51): `INSERT INTO wallets (address,
token_balance) VALUES ($1, 0)`.  The statement names the `wallets` table
literally; `walletTable` is not consulted.  Inserting an existing primary
key is a unique violation. -/
def addWallet (db : DB) (address : String) : Except Err DB :=
  if (db "wallets" address).isSome then .error .storeFailed
  else .ok (setBal db "wallets" address 0)

/-- `getTokenBalance` (lines 53-58): `SELECT token_balance FROM wallets
WHERE address = $1`, sql.ErrNoRows when the row is absent.  The table name
is the literal `wallets`.  (The source scans into a string; balances stay
exact rationals here.) -/
def getTokenBalance (db : DB) (address : String) : Except Err Rat :=
  match db "wallets" address with
  | some b => .ok b
  | none => .error .noRows

/-- One `UPDATE wallets SET token_balance = token_balance + delta WHERE
address = $2`: matching no row is a successful no-op; a result below zero
violates `CHECK (token_balance >= 0)`. -/
def updateRow (db : DB) (addr : String) (delta : Rat) : Except Err DB :=
  match db "wallets" addr with
  | none => .ok db
  | some b =>
    if b + delta < 0 then .error .checkViolation
    else .ok (setBal db "wallets" addr (b + delta))

/-- `updateBalances` (lines 61-68): debit the sender then credit the
recipient by the same exact amount (`$1::numeric`), both against the
hard-coded `wallets` table.  `u1fail`/`u2fail` inject driver failures of
the two Execs. -/
def updateBalances (u1fail u2fail : Bool) (db : DB)
    (fromAddress toAddress : String) (amount : Rat) : Except Err DB :=
  if u1fail then .error .storeFailed
  else
    match updateRow db fromAddress (-amount) with
    | .error e => .error e
    | .ok db1 =>
      if u2fail then .error .storeFailed
      else updateRow db1 toAddress amount

/-- Injected environmental failures for the store interactions of one
`Transfer` call (Begin, the two lock Execs, the two balance reads, the
recipient insert, the two updates, Commit). -/
structure FailSchedule where
  beginFail : Bool
  lock1Fail : Bool
  lock2Fail : Bool
  senderReadFail : Bool
  recipientReadFail : Bool
  insertFail : Bool
  update1Fail : Bool
  update2Fail : Bool
  commitFail : Bool

/-- The failure-free schedule. -/
def noFail : FailSchedule :=
  ⟨false, false, false, false, false, false, false, false, false⟩

/-- `lockWallets` (lines 24-45): `SELECT pg_advisory_xact_lock($1)` on
both address hashes, always in ascending hash order; returns the lock
statements issued and the first failure, if any. -/
def lockWallets (sched : FailSchedule) (fromAddress toAddress : String) :
    List Event × Option Err :=
  if hashAddress fromAddress < hashAddress toAddress then
    if sched.lock1Fail then ([.lockEv (hashAddress fromAddress)], some .storeFailed)
    else if sched.lock2Fail then
      ([.lockEv (hashAddress fromAddress), .lockEv (hashAddress toAddress)], some .storeFailed)
    else ([.lockEv (hashAddress fromAddress), .lockEv (hashAddress toAddress)], none)
  else
    if sched.lock1Fail then ([.lockEv (hashAddress toAddress)], some .storeFailed)
    else if sched.lock2Fail then
      ([.lockEv (hashAddress toAddress), .lockEv (hashAddress fromAddress)], some .storeFailed)
    else ([.lockEv (hashAddress toAddress), .lockEv (hashAddress fromAddress)], none)

/-- The recipient-existence step of `Transfer` (lines 136-146): read the
recipient row; on sql.ErrNoRows insert it with zero balance; a failing
insert aborts. -/
def ensureWallet (insFail : Bool) (db : DB) (toAddress : String)
    (evs : List Event) : Except Err (DB × List Event) :=
  match getTokenBalance db toAddress with
  | .ok _ => .ok (db, evs)
  | .error _ =>
    if insFail then .error .storeFailed
    else
      match addWallet db toAddress with
      | .error e => .error e
      | .ok db1 => .ok (db1, evs ++ [.insertEv "wallets" toAddress])

/-- Outcome of one `Transfer` call: the returned value or error, the
committed database state, and the statements issued inside the
transaction. -/
structure TransferResult where
  value : Except Err Rat
  db : DB
  events : List Event

/-- `Transfer` (lines 95-161): begin a transaction (`defer tx.Rollback()`);
validate the amount; take both advisory locks; read the sender balance
(any error, including sql.ErrNoRows, aborts); re-parse the amount as a
big.Rat (after validation this always succeeds with the same value);
compare balance to amount exactly; create the recipient if absent; apply
both updates; commit.  Every error path rolls back, so the committed state
of an error return is the input `db`.  The returned balance is
`senderBalance - transferAmount`; `FloatString(18)` renders it exactly
because every value in range has scale at most 18. -/
def Transfer (r : Resolver) (sched : FailSchedule) (db : DB)
    (fromAddress toAddress amount : String) : TransferResult :=
  if sched.beginFail then ⟨.error .beginFailed, db, []⟩
  else
    match validateTokenAmount amount with
    | .error e => ⟨.error e, db, []⟩
    | .ok _ =>
      match lockWallets sched fromAddress toAddress with
      | (evs, some e) => ⟨.error e, db, evs⟩
      | (evs, none) =>
        if sched.senderReadFail then
          ⟨.error .storeFailed, db, evs ++ [.readEv "wallets" fromAddress]⟩
        else
          match getTokenBalance db fromAddress with
          | .error e => ⟨.error e, db, evs ++ [.readEv "wallets" fromAddress]⟩
          | .ok senderBalance =>
            match NewFromString amount with
            | none =>
              ⟨.error .invalidTransferAmount, db, evs ++ [.readEv "wallets" fromAddress]⟩
            | some d =>
              if senderBalance < d.toRat then
                ⟨.error .insufficientBalance, db, evs ++ [.readEv "wallets" fromAddress]⟩
              else if sched.recipientReadFail then
                ⟨.error .storeFailed, db,
                  evs ++ [.readEv "wallets" fromAddress, .readEv "wallets" toAddress]⟩
              else
                match ensureWallet sched.insertFail db toAddress
                    (evs ++ [.readEv "wallets" fromAddress, .readEv "wallets" toAddress]) with
                | .error e =>
                  ⟨.error e, db,
                    evs ++ [.readEv "wallets" fromAddress, .readEv "wallets" toAddress]⟩
                | .ok (db1, evs1) =>
                  match updateBalances sched.update1Fail sched.update2Fail db1
                      fromAddress toAddress d.toRat with
                  | .error e =>
                    ⟨.error e, db,
                      evs1 ++ [.updateEv "wallets" fromAddress, .updateEv "wallets" toAddress]⟩
                  | .ok db2 =>
                    if sched.commitFail then
                      ⟨.error .commitFailed, db,
                        evs1 ++ [.updateEv "wallets" fromAddress, .updateEv "wallets" toAddress]⟩
                    else
                      ⟨.ok (senderBalance - d.toRat), db2,
                        evs1 ++ [.updateEv "wallets" fromAddress, .updateEv "wallets" toAddress]⟩

/-- `model.Wallet`: the GraphQL wallet object (address, balance). -/
structure WalletModel where
  address : String
  balance : Rat
deriving DecidableEq

/-- The `Wallet` query resolver (lines 164-175): `SELECT address,
token_balance FROM wallets WHERE address = $1` — table name hard-coded,
no locking, `walletTable` unused. -/
def queryWallet (r : Resolver) (db : DB) (address : String) :
    Except Err WalletModel × List Event :=
  (match db "wallets" address with
   | some b => .ok ⟨address, b⟩
   | none => .error .noRows,
   [.readEv "wallets" address])

/-- One transfer request: resolver configuration, environment behaviour,
and the three GraphQL arguments. -/
structure Call where
  r : Resolver
  sched : FailSchedule
  fromAddress : String
  toAddress : String
  amount : String

/-- The committed state after a sequence of transfer calls. -/
def applyCalls (calls : List Call) (db : DB) : DB :=
  calls.foldl
    (fun s c => (Transfer c.r c.sched s c.fromAddress c.toAddress c.amount).db) db

/-- Every stored balance, in every table, is non-negative. -/
def NonNeg (db : DB) : Prop := ∀ t a b, db t a = some b → 0 ≤ b

/-! Concrete states and addresses used by witnesses and counterexamples. -/

/-- A resolver configured, like `main.go`, with the production table. -/
def r0 : Resolver := ⟨"wallets"⟩

def addrA : String := "0xA000000000000000000000000000000000000000"

/-- `addrA` with its hex digit in lower case: a distinct raw string. -/
def addrALower : String := "0xa000000000000000000000000000000000000000"

def addrB : String := "0xB000000000000000000000000000000000000000"

/-- Only 39 hex characters after `0x`: not a valid address format. -/
def addrShort : String := "0xa00000000000000000000000000000000000000"

/-- `wallets` holds only `addrA ↦ 10`. -/
def dbA10 : DB := fun t a => if t = "wallets" ∧ a = addrA then some 10 else none

/-- `wallets` holds `addrA ↦ 10` and `addrB ↦ 0`; `test_wallets` holds
`addrA ↦ 5`. -/
def dbC8 : DB := fun t a =>
  if t = "wallets" ∧ a = addrA then some 10
  else if t = "wallets" ∧ a = addrB then some 0
  else if t = "test_wallets" ∧ a = addrA then some 5
  else none

/-- `wallets` holds only `addrA ↦ 10` in a second copy used where a
distinct sender state is needed. -/
def dbB5 : DB := fun t a => if t = "wallets" ∧ a = addrA then some 10 else none

/-! ## Characterization lemmas for the embedded operations -/

deriving instance DecidableEq for Except

theorem getTokenBalance_ok {db : DB} {addr : String} {b : Rat}
    (h : getTokenBalance db addr = .ok b) : db "wallets" addr = some b := by
  unfold getTokenBalance at h
  cases hx : db "wallets" addr <;> rw [hx] at h <;> simp_all

theorem getTokenBalance_of_some {db : DB} {addr : String} {b : Rat}
    (h : db "wallets" addr = some b) : getTokenBalance db addr = .ok b := by
  unfold getTokenBalance
  rw [h]

theorem getTokenBalance_of_none {db : DB} {addr : String}
    (h : db "wallets" addr = none) : getTokenBalance db addr = .error .noRows := by
  unfold getTokenBalance
  rw [h]

theorem updateRow_eq_none {db : DB} {addr : String} {delta : Rat}
    (hx : db "wallets" addr = none) : updateRow db addr delta = .ok db := by
  unfold updateRow
  rw [hx]

theorem updateRow_eq_some {db : DB} {addr : String} {delta b : Rat}
    (hx : db "wallets" addr = some b) :
    updateRow db addr delta =
      if b + delta < 0 then .error .checkViolation
      else .ok (setBal db "wallets" addr (b + delta)) := by
  unfold updateRow
  rw [hx]

theorem updateRow_ok {db : DB} {addr : String} {delta : Rat} {db2 : DB}
    (h : updateRow db addr delta = .ok db2) :
    ∀ t x, db2 t x =
      if t = "wallets" ∧ x = addr then (db "wallets" addr).map (fun b => b + delta)
      else db t x := by
  intro t x
  cases hx : db "wallets" addr with
  | none =>
    rw [updateRow_eq_none hx] at h
    injection h with h2
    subst h2
    by_cases hc : t = "wallets" ∧ x = addr
    · rw [if_pos hc, hc.1, hc.2, hx]
      rfl
    · rw [if_neg hc]
  | some b =>
    rw [updateRow_eq_some hx] at h
    split at h
    · exact absurd h (by simp)
    · injection h with h2
      subst h2
      unfold setBal
      by_cases hc : t = "wallets" ∧ x = addr
      · rw [if_pos hc, if_pos hc]
        rfl
      · rw [if_neg hc, if_neg hc]

theorem updateBalances_ok {u1 u2 : Bool} {db : DB} {fa ta : String} {a : Rat} {db2 : DB}
    (h : updateBalances u1 u2 db fa ta a = .ok db2) :
    ∃ db1, updateRow db fa (-a) = .ok db1 ∧ updateRow db1 ta a = .ok db2 := by
  unfold updateBalances at h
  split at h
  · exact absurd h (by simp)
  · cases h1 : updateRow db fa (-a) with
    | error e =>
      rw [h1] at h
      replace h : (Except.error e : Except Err DB) = Except.ok db2 := h
      exact absurd h (by simp)
    | ok d1 =>
      rw [h1] at h
      replace h : (if u2 = true then Except.error Err.storeFailed
          else updateRow d1 ta a) = Except.ok db2 := h
      split at h
      · exact absurd h (by simp)
      · exact ⟨d1, rfl, h⟩

theorem ensureWallet_ok {insFail : Bool} {db : DB} {toAddress : String}
    {evs : List Event} {db1 : DB} {evs1 : List Event}
    (h : ensureWallet insFail db toAddress evs = .ok (db1, evs1)) :
    ∀ t x, db1 t x =
      if t = "wallets" ∧ x = toAddress then some ((db "wallets" toAddress).getD 0)
      else db t x := by
  unfold ensureWallet at h
  intro t x
  cases hx : db "wallets" toAddress with
  | some b =>
    rw [getTokenBalance_of_some hx] at h
    replace h : Except.ok (db, evs) = Except.ok (db1, evs1) := h
    injection h with h2
    injection h2 with h3 h4
    subst h3
    by_cases hc : t = "wallets" ∧ x = toAddress
    · rw [if_pos hc, hc.1, hc.2, hx]
      rfl
    · rw [if_neg hc]
  | none =>
    rw [getTokenBalance_of_none hx] at h
    replace h : (if insFail = true then (Except.error Err.storeFailed : Except Err (DB × List Event))
        else match addWallet db toAddress with
          | .error e => Except.error e
          | .ok dbn => Except.ok (dbn, evs ++ [Event.insertEv "wallets" toAddress])) =
        Except.ok (db1, evs1) := h
    split at h
    · exact absurd h (by simp)
    · unfold addWallet at h
      rw [hx] at h
      replace h : Except.ok (setBal db "wallets" toAddress 0,
          evs ++ [Event.insertEv "wallets" toAddress]) = Except.ok (db1, evs1) := h
      injection h with h2
      injection h2 with h3 h4
      subst h3
      unfold setBal
      by_cases hc : t = "wallets" ∧ x = toAddress
      · rw [if_pos hc, if_pos hc]
        rfl
      · rw [if_neg hc, if_neg hc]

theorem ensureWallet_noFail {db : DB} {toAddress : String} {evs : List Event} :
    ∃ db1 evs1, ensureWallet false db toAddress evs = .ok (db1, evs1) := by
  unfold ensureWallet
  cases hx : db "wallets" toAddress with
  | some b => rw [getTokenBalance_of_some hx]; exact ⟨_, _, rfl⟩
  | none =>
    rw [getTokenBalance_of_none hx]
    unfold addWallet
    rw [hx]
    exact ⟨_, _, rfl⟩

theorem validateTokenAmount_ok {amount : String} (h : validateTokenAmount amount = .ok ()) :
    ∃ d, NewFromString amount = some d ∧ 0 < d.toRat := by
  unfold validateTokenAmount at h
  cases hp : NewFromString amount with
  | none => rw [hp] at h; exact absurd h (by simp)
  | some d =>
    rw [hp] at h
    replace h : (if d.toRat ≤ 0 then Except.error Err.nonPositiveAmount
        else if d.exp < -18 then Except.error Err.tooManyDecimalPlaces
        else if 28 < (Nat.toDigits 10 d.value.natAbs).length then Except.error Err.tooManyDigits
        else Except.ok ()) = Except.ok () := h
    refine ⟨d, rfl, ?_⟩
    by_cases h0 : d.toRat ≤ 0
    · rw [if_pos h0] at h
      exact absurd h (by simp)
    · exact lt_of_not_le h0

theorem lockWallets_noFail (fa ta : String) :
    ∃ evs, lockWallets noFail fa ta = (evs, none) := by
  unfold lockWallets noFail
  split <;> exact ⟨_, rfl⟩


/-- Generic transaction outcome: either some step failed and the committed
state is untouched, or the transfer succeeded, the sender had a sufficient
balance, and the committed state reflects exactly the debit and credit
(pointwise; a same-address transfer leaves every row unchanged because the
debit and credit hit the same row). -/
theorem transfer_shape (r : Resolver) (sched : FailSchedule) (db : DB)
    (fromAddress toAddress amount : String) (out : TransferResult)
    (hT : Transfer r sched db fromAddress toAddress amount = out) :
    ((∃ e, out.value = .error e) ∧ out.db = db) ∨
    (∃ d b, NewFromString amount = some d ∧
      validateTokenAmount amount = .ok () ∧
      db "wallets" fromAddress = some b ∧ d.toRat ≤ b ∧
      out.value = .ok (b - d.toRat) ∧
      ∀ t x, out.db t x =
        if t = "wallets" ∧ fromAddress ≠ toAddress then
          (if x = fromAddress then some (b - d.toRat)
           else if x = toAddress then some ((db "wallets" toAddress).getD 0 + d.toRat)
           else db t x)
        else db t x) := by
  unfold Transfer at hT
  repeat' split at hT
  all_goals subst hT
  all_goals try (exact Or.inl ⟨⟨_, rfl⟩, rfl⟩)
  rename_i hbg xv uu hv xl evs hl hsr xg sb hgb xp d hp hns hrr xe dbe evs1 hew xu db2 hub hcm
  refine Or.inr ⟨d, sb, hp, hv, getTokenBalance_ok hgb, not_lt.mp hns, rfl, ?_⟩
  obtain ⟨dbm, hu1, hu2⟩ := updateBalances_ok hub
  have e1 := ensureWallet_ok hew
  have e2 := updateRow_ok hu1
  have e3 := updateRow_ok hu2
  have hb := getTokenBalance_ok hgb
  intro t x
  show db2 t x = _
  simp only [e3, e2, e1]
  by_cases hft : fromAddress = toAddress
  · subst hft
    by_cases ht : t = "wallets"
    · subst ht
      by_cases hx2 : x = fromAddress
      · subst hx2
        simp [hb, neg_add_cancel_right]
      · simp [hx2]
    · simp [ht]
  · by_cases ht : t = "wallets"
    · subst ht
      by_cases hx2 : x = fromAddress
      · subst hx2
        simp [hb, hft, Ne.symm hft, sub_eq_add_neg]
      · by_cases hx3 : x = toAddress
        · subst hx3
          simp [hx2, hft, Ne.symm hft]
        · simp [hx2, hx3]
    · simp [ht]

/-- The transaction-local state after the recipient-existence step. -/
def ensureWalletDB (db : DB) (ta : String) : DB :=
  match db "wallets" ta with
  | some _ => db
  | none => setBal db "wallets" ta 0

/-- The statements issued up to and including the recipient-existence
step. -/
def ensureWalletEvs (db : DB) (ta : String) (evs : List Event) : List Event :=
  match db "wallets" ta with
  | some _ => evs
  | none => evs ++ [.insertEv "wallets" ta]

theorem ensureWallet_noFail_eq (db : DB) (ta : String) (evs : List Event) :
    ensureWallet false db ta evs = .ok (ensureWalletDB db ta, ensureWalletEvs db ta evs) := by
  unfold ensureWallet ensureWalletDB ensureWalletEvs getTokenBalance addWallet
  cases hx : db "wallets" ta <;> rfl

theorem updateBalances_noFail_eq (db : DB) (fa ta : String) (a : Rat) :
    updateBalances false false db fa ta a =
      match updateRow db fa (-a) with
      | .error e => .error e
      | .ok db1 => updateRow db1 ta a := by
  unfold updateBalances
  cases hx : updateRow db fa (-a) <;> rfl

theorem validate_pos {amount : String} {d : Dec}
    (hp : NewFromString amount = some d)
    (hv : validateTokenAmount amount = .ok ()) : 0 < d.toRat := by
  obtain ⟨d2, hp2, h2⟩ := validateTokenAmount_ok hv
  rw [hp] at hp2
  injection hp2 with h3
  rw [h3]
  exact h2


theorem noFail_beginFail : noFail.beginFail = false := rfl

theorem noFail_senderReadFail : noFail.senderReadFail = false := rfl

theorem noFail_recipientReadFail : noFail.recipientReadFail = false := rfl

theorem noFail_insertFail : noFail.insertFail = false := rfl

theorem noFail_update1Fail : noFail.update1Fail = false := rfl

theorem noFail_update2Fail : noFail.update2Fail = false := rfl

theorem noFail_commitFail : noFail.commitFail = false := rfl

/-- Complete evaluation of `Transfer` under the failure-free schedule,
given a validated amount: the value returned is determined by the sender
row, the exact comparison, and the recipient CHECK constraint. -/
theorem transfer_noFail_value (r : Resolver) (db : DB) (fa ta amount : String) (d : Dec)
    (hp : NewFromString amount = some d) (hv : validateTokenAmount amount = .ok ()) :
    (Transfer r noFail db fa ta amount).value =
      match db "wallets" fa with
      | none => .error .noRows
      | some b =>
        if b < d.toRat then .error .insufficientBalance
        else if fa = ta ∨ 0 ≤ (db "wallets" ta).getD 0 + d.toRat then .ok (b - d.toRat)
        else .error .checkViolation := by
  obtain ⟨evs, hl⟩ := lockWallets_noFail fa ta
  have ha : 0 < d.toRat := validate_pos hp hv
  cases hb : db "wallets" fa with
  | none =>
    simp only [Transfer, noFail_beginFail, noFail_senderReadFail,
        noFail_recipientReadFail, noFail_insertFail, noFail_update1Fail,
        noFail_update2Fail, noFail_commitFail, hv, hl, getTokenBalance_of_none hb]
    rfl
  | some b =>
    by_cases hlt : b < d.toRat
    · simp only [Transfer, noFail_beginFail, noFail_senderReadFail,
        noFail_recipientReadFail, noFail_insertFail, noFail_update1Fail,
        noFail_update2Fail, noFail_commitFail, hv, hl, getTokenBalance_of_some hb, hp, hlt,
        Bool.false_eq_true, if_false, if_true]
    · have hge : d.toRat ≤ b := not_lt.mp hlt
      have hb1 : (ensureWalletDB db ta) "wallets" fa = some b := by
        unfold ensureWalletDB
        cases hr : db "wallets" ta with
        | some c => exact hb
        | none =>
          show (if "wallets" = "wallets" ∧ fa = ta then some 0 else db "wallets" fa) = some b
          by_cases hft : fa = ta
          · exfalso
            rw [← hft, hb] at hr
            exact Option.noConfusion hr
          · rw [if_neg (fun hc => hft hc.2)]
            exact hb
      have hnn1 : ¬ (b + -d.toRat < 0) := by
        rw [not_lt]
        linarith
      have hu1 : updateRow (ensureWalletDB db ta) fa (-d.toRat) =
          .ok (setBal (ensureWalletDB db ta) "wallets" fa (b + -d.toRat)) := by
        rw [updateRow_eq_some hb1, if_neg hnn1]
      by_cases hft : fa = ta
      · subst hft
        have hta : (setBal (ensureWalletDB db fa) "wallets" fa (b + -d.toRat)) "wallets" fa
            = some (b + -d.toRat) := by
          unfold setBal
          rw [if_pos ⟨rfl, rfl⟩]
        have hnn2 : ¬ (b + -d.toRat + d.toRat < 0) := by
          rw [neg_add_cancel_right, not_lt]
          linarith
        have hu2 : updateRow (setBal (ensureWalletDB db fa) "wallets" fa (b + -d.toRat)) fa d.toRat
            = .ok (setBal (setBal (ensureWalletDB db fa) "wallets" fa (b + -d.toRat))
                "wallets" fa (b + -d.toRat + d.toRat)) := by
          rw [updateRow_eq_some hta, if_neg hnn2]
        simp only [Transfer, noFail_beginFail, noFail_senderReadFail,
        noFail_recipientReadFail, noFail_insertFail, noFail_update1Fail,
        noFail_update2Fail, noFail_commitFail, hv, hl, getTokenBalance_of_some hb, hp, hlt,
          ensureWallet_noFail_eq, updateBalances_noFail_eq, hu1, hu2,
          Bool.false_eq_true, if_false, if_true, eq_self_iff_true, true_or]
      · have hta2 : (setBal (ensureWalletDB db ta) "wallets" fa (b + -d.toRat)) "wallets" ta
            = some ((db "wallets" ta).getD 0) := by
          unfold setBal
          rw [if_neg (fun hc => hft hc.2.symm)]
          unfold ensureWalletDB
          cases hr : db "wallets" ta with
          | some c => exact hr
          | none =>
            show (if "wallets" = "wallets" ∧ ta = ta then some 0 else db "wallets" ta)
              = some (Option.getD none 0)
            rw [if_pos ⟨rfl, rfl⟩]
            rfl
        by_cases hcc : 0 ≤ (db "wallets" ta).getD 0 + d.toRat
        · have hnn2 : ¬ ((db "wallets" ta).getD 0 + d.toRat < 0) := not_lt.mpr hcc
          have hu2 : updateRow (setBal (ensureWalletDB db ta) "wallets" fa (b + -d.toRat)) ta d.toRat
              = .ok (setBal (setBal (ensureWalletDB db ta) "wallets" fa (b + -d.toRat))
                  "wallets" ta ((db "wallets" ta).getD 0 + d.toRat)) := by
            rw [updateRow_eq_some hta2, if_neg hnn2]
          simp only [Transfer, noFail_beginFail, noFail_senderReadFail,
        noFail_recipientReadFail, noFail_insertFail, noFail_update1Fail,
        noFail_update2Fail, noFail_commitFail, hv, hl, getTokenBalance_of_some hb, hp, hlt,
            ensureWallet_noFail_eq, updateBalances_noFail_eq, hu1, hu2, hft, hcc,
            Bool.false_eq_true, if_false, if_true, false_or, or_true]
        · have hcl : (db "wallets" ta).getD 0 + d.toRat < 0 := not_le.mp hcc
          have hu2 : updateRow (setBal (ensureWalletDB db ta) "wallets" fa (b + -d.toRat)) ta d.toRat
              = .error .checkViolation := by
            rw [updateRow_eq_some hta2, if_pos hcl]
          simp only [Transfer, noFail_beginFail, noFail_senderReadFail,
        noFail_recipientReadFail, noFail_insertFail, noFail_update1Fail,
        noFail_update2Fail, noFail_commitFail, hv, hl, getTokenBalance_of_some hb, hp, hlt,
            ensureWallet_noFail_eq, updateBalances_noFail_eq, hu1, hu2, hft, hcc,
            Bool.false_eq_true, if_false, if_true, false_or, or_false]


theorem transfer_noFail_value_none (r : Resolver) (db : DB) (fa ta amount : String) (d : Dec)
    (hp : NewFromString amount = some d) (hv : validateTokenAmount amount = .ok ())
    (hb : db "wallets" fa = none) :
    (Transfer r noFail db fa ta amount).value = .error .noRows := by
  have hval := transfer_noFail_value r db fa ta amount d hp hv
  rw [hb] at hval
  exact hval

theorem transfer_noFail_value_some (r : Resolver) (db : DB) (fa ta amount : String)
    (d : Dec) (b : Rat)
    (hp : NewFromString amount = some d) (hv : validateTokenAmount amount = .ok ())
    (hb : db "wallets" fa = some b) :
    (Transfer r noFail db fa ta amount).value =
      if b < d.toRat then .error .insufficientBalance
      else if fa = ta ∨ 0 ≤ (db "wallets" ta).getD 0 + d.toRat then .ok (b - d.toRat)
      else .error .checkViolation := by
  have hval := transfer_noFail_value r db fa ta amount d hp hv
  rw [hb] at hval
  exact hval

/-- C2: Atomicity on failure — every transfer call that returns an error
(of any kind: invalid amount, missing sender, insufficient balance,
injected store failure, failed commit) commits no write: the ledger state
after the call is exactly the state before the call. -/
theorem c2_rollback_on_error (r : Resolver) (sched : FailSchedule) (db : DB)
    (fromAddress toAddress amount : String) (e : Err)
    (h : (Transfer r sched db fromAddress toAddress amount).value = .error e) :
    (Transfer r sched db fromAddress toAddress amount).db = db := by
  rcases transfer_shape r sched db fromAddress toAddress amount _ rfl with
    ⟨_, hdb⟩ | ⟨d, b, _, _, _, _, hok, _⟩
  · exact hdb
  · rw [h] at hok
    exact absurd hok (by simp)

/-- Witness for C2: a concrete failing call (insufficient balance) leaves
the concrete state untouched. -/
theorem c2_rollback_on_error_witness :
    (Transfer r0 noFail dbA10 addrA addrB "100").value = .error .insufficientBalance ∧
    (Transfer r0 noFail dbA10 addrA addrB "100").db = dbA10 :=
  ⟨by with_unfolding_all decide,
   c2_rollback_on_error r0 noFail dbA10 addrA addrB "100" .insufficientBalance
     (by with_unfolding_all decide)⟩

theorem transfer_preserves_nonNeg (r : Resolver) (sched : FailSchedule) (db : DB)
    (fromAddress toAddress amount : String) (hdb : NonNeg db) :
    NonNeg (Transfer r sched db fromAddress toAddress amount).db := by
  rcases transfer_shape r sched db fromAddress toAddress amount _ rfl with
    ⟨_, hdb2⟩ | ⟨d, b, hp, hv, hb, hle, _, hptw⟩
  · rw [hdb2]
    exact hdb
  · have ha := validate_pos hp hv
    have hget : 0 ≤ (db "wallets" toAddress).getD 0 := by
      cases hr : db "wallets" toAddress with
      | none => exact le_refl 0
      | some c => exact hdb "wallets" toAddress c hr
    intro t a bv hv2
    rw [hptw t a] at hv2
    by_cases hc : t = "wallets" ∧ fromAddress ≠ toAddress
    · rw [if_pos hc] at hv2
      by_cases hxf : a = fromAddress
      · rw [if_pos hxf] at hv2
        injection hv2 with h3
        rw [← h3]
        linarith
      · rw [if_neg hxf] at hv2
        by_cases hxt : a = toAddress
        · rw [if_pos hxt] at hv2
          injection hv2 with h3
          rw [← h3]
          linarith
        · rw [if_neg hxt] at hv2
          exact hdb t a bv hv2
    · rw [if_neg hc] at hv2
      exact hdb t a bv hv2

/-- C3: Non-negativity invariant — from any state in which every stored
balance is non-negative, any sequence of transfer calls (with any failure
behaviour) leads only to states in which every stored balance is
non-negative. -/
theorem c3_nonneg_invariant (calls : List Call) (db : DB) (hdb : NonNeg db) :
    NonNeg (applyCalls calls db) := by
  induction calls generalizing db with
  | nil => exact hdb
  | cons c rest ih =>
    exact ih _ (transfer_preserves_nonNeg c.r c.sched db c.fromAddress c.toAddress c.amount hdb)

theorem dbA10_nonNeg : NonNeg dbA10 := by
  intro t a b h
  unfold dbA10 at h
  split at h
  · injection h with h2
    rw [← h2]
    norm_num
  · exact Option.noConfusion h

/-- Witness for C3: the invariant holds after a concrete transfer from the
concrete non-negative state. -/
theorem c3_nonneg_invariant_witness :
    NonNeg (applyCalls [⟨r0, noFail, addrA, addrB, "1"⟩] dbA10) :=
  c3_nonneg_invariant [⟨r0, noFail, addrA, addrB, "1"⟩] dbA10 dbA10_nonNeg

/-- C1 counterexample: a transfer whose sender and recipient are the same
raw address succeeds, and the stored balance of that account after the
commit equals its balance before — not its balance before minus the
amount, as the claim requires of the sender. -/
theorem c1_conservation_counterexample :
    (Transfer r0 noFail dbA10 addrA addrA "1").value = .ok 9 ∧
    walletBalance (Transfer r0 noFail dbA10 addrA addrA "1").db addrA = some 10 ∧
    ¬ walletBalance (Transfer r0 noFail dbA10 addrA addrA "1").db addrA = some (10 - 1) := by
  with_unfolding_all decide

/-- C1 (amended): conservation for transfers between distinct raw
addresses — every successful transfer of a valid amount decreases the
stored sender balance by exactly the amount and increases the stored
recipient balance (zero for a freshly created recipient) by exactly the
same amount, in exact arithmetic. -/
theorem c1_conservation_distinct (r : Resolver) (sched : FailSchedule) (db : DB)
    (fromAddress toAddress amount : String) (v : Rat)
    (hne : fromAddress ≠ toAddress)
    (hok : (Transfer r sched db fromAddress toAddress amount).value = .ok v) :
    ∃ d b, NewFromString amount = some d ∧
      walletBalance db fromAddress = some b ∧ v = b - d.toRat ∧
      walletBalance (Transfer r sched db fromAddress toAddress amount).db fromAddress
        = some (b - d.toRat) ∧
      walletBalance (Transfer r sched db fromAddress toAddress amount).db toAddress
        = some ((walletBalance db toAddress).getD 0 + d.toRat) := by
  rcases transfer_shape r sched db fromAddress toAddress amount _ rfl with
    ⟨⟨e, herr⟩, _⟩ | ⟨d, b, hp, hv, hb, hle, hokv, hptw⟩
  · rw [hok] at herr
    exact absurd herr (by simp)
  · refine ⟨d, b, hp, hb, ?_, ?_, ?_⟩
    · rw [hok] at hokv
      exact Except.ok.inj hokv
    · unfold walletBalance
      rw [hptw, if_pos ⟨rfl, hne⟩, if_pos rfl]
    · unfold walletBalance
      rw [hptw, if_pos ⟨rfl, hne⟩, if_neg (fun hx => hne hx.symm), if_pos rfl]

/-- Witness for C1 (amended) at a concrete distinct-address transfer. -/
theorem c1_conservation_distinct_witness :
    addrA ≠ addrB ∧
    (∃ d b, NewFromString "1" = some d ∧
      walletBalance dbA10 addrA = some b ∧ (9 : Rat) = b - d.toRat ∧
      walletBalance (Transfer r0 noFail dbA10 addrA addrB "1").db addrA = some (b - d.toRat) ∧
      walletBalance (Transfer r0 noFail dbA10 addrA addrB "1").db addrB
        = some ((walletBalance dbA10 addrB).getD 0 + d.toRat)) :=
  ⟨by decide, c1_conservation_distinct r0 noFail dbA10 addrA addrB "1" 9 (by decide)
    (by with_unfolding_all decide)⟩


/-- C4 counterexample: with sender and recipient the same raw address, a
transfer of exactly the full balance succeeds but does not leave the
sender at zero — the stored balance is unchanged. -/
theorem c4_full_balance_counterexample :
    (Transfer r0 noFail dbA10 addrA addrA "10").value = .ok 0 ∧
    walletBalance (Transfer r0 noFail dbA10 addrA addrA "10").db addrA = some 10 ∧
    ¬ walletBalance (Transfer r0 noFail dbA10 addrA addrA "10").db addrA = some 0 := by
  with_unfolding_all decide

/-- C4 (amended): for a valid amount and an existing sender, the call
fails with the insufficient-balance error exactly when the sender balance
is strictly below the amount (exact decimal comparison); and — provided
the recipient is a distinct address with a non-negative stored balance —
a transfer of exactly the full balance succeeds and leaves the sender
stored at zero. -/
theorem c4_insufficient_iff (r : Resolver) (db : DB) (fromAddress toAddress amount : String)
    (d : Dec) (b : Rat)
    (hp : NewFromString amount = some d)
    (hv : validateTokenAmount amount = .ok ())
    (hb : walletBalance db fromAddress = some b) :
    ((Transfer r noFail db fromAddress toAddress amount).value = .error .insufficientBalance
      ↔ b < d.toRat) ∧
    (fromAddress ≠ toAddress → b = d.toRat →
      0 ≤ (walletBalance db toAddress).getD 0 →
      (Transfer r noFail db fromAddress toAddress amount).value = .ok 0 ∧
      walletBalance (Transfer r noFail db fromAddress toAddress amount).db fromAddress
        = some 0) := by
  unfold walletBalance at hb
  have hval := transfer_noFail_value_some r db fromAddress toAddress amount d b hp hv hb
  constructor
  · constructor
    · intro he
      by_contra hnlt
      rw [if_neg hnlt, he] at hval
      by_cases hP : fromAddress = toAddress ∨ 0 ≤ (db "wallets" toAddress).getD 0 + d.toRat
      · rw [if_pos hP] at hval
        exact absurd hval (by simp)
      · rw [if_neg hP] at hval
        exact absurd hval (by simp)
    · intro hlt
      rw [if_pos hlt] at hval
      exact hval
  · intro hne hba hge
    have ha := validate_pos hp hv
    unfold walletBalance at hge
    rw [if_neg (by rw [hba]; exact lt_irrefl _),
      if_pos (Or.inr (by linarith))] at hval
    have hokv : (Transfer r noFail db fromAddress toAddress amount).value = .ok 0 := by
      rw [hval, hba, sub_self]
    refine ⟨hokv, ?_⟩
    rcases transfer_shape r noFail db fromAddress toAddress amount _ rfl with
      ⟨⟨e, herr⟩, _⟩ | ⟨d2, b2, hp2, _, hb2, _, hokv2, hptw⟩
    · rw [herr] at hokv
      exact absurd hokv (by simp)
    · rw [hb] at hb2
      injection hb2 with h3
      rw [hp] at hp2
      injection hp2 with h4
      unfold walletBalance
      rw [hptw, if_pos ⟨rfl, hne⟩, if_pos rfl, ← h3, ← h4, hba, sub_self]

/-- Witness for C4 (amended) at a concrete full-balance transfer. -/
theorem c4_insufficient_iff_witness :
    (((Transfer r0 noFail dbA10 addrA addrB "10").value = .error .insufficientBalance
      ↔ (10 : Rat) < (⟨10, 0⟩ : Dec).toRat) ∧
    (addrA ≠ addrB → (10 : Rat) = (⟨10, 0⟩ : Dec).toRat →
      0 ≤ (walletBalance dbA10 addrB).getD 0 →
      (Transfer r0 noFail dbA10 addrA addrB "10").value = .ok 0 ∧
      walletBalance (Transfer r0 noFail dbA10 addrA addrB "10").db addrA = some 0)) :=
  c4_insufficient_iff r0 dbA10 addrA addrB "10" ⟨10, 0⟩ 10 (by decide)
    (by with_unfolding_all decide) (by with_unfolding_all decide)

/-- C5: Existence asymmetry — with a validated amount: a transfer whose
sender has no row fails with the no-rows error and changes nothing; a
transfer whose sender exists never fails with the no-rows error (a missing
recipient triggers creation instead); a missing recipient ends, on
success, with exactly the transferred amount; and any address holding a
row after a call either held a row before or is the call's recipient —
the recipient-creation path is the only implicit account creation. -/
theorem c5_existence_asymmetry (r : Resolver) (db : DB)
    (fromAddress toAddress amount : String) (d : Dec)
    (hp : NewFromString amount = some d)
    (hv : validateTokenAmount amount = .ok ()) :
    (walletBalance db fromAddress = none →
      (Transfer r noFail db fromAddress toAddress amount).value = .error .noRows ∧
      (Transfer r noFail db fromAddress toAddress amount).db = db) ∧
    (∀ b, walletBalance db fromAddress = some b →
      (Transfer r noFail db fromAddress toAddress amount).value ≠ .error .noRows) ∧
    (walletBalance db toAddress = none → ∀ v,
      (Transfer r noFail db fromAddress toAddress amount).value = .ok v →
      walletBalance (Transfer r noFail db fromAddress toAddress amount).db toAddress
        = some d.toRat) ∧
    (∀ sched x,
      walletBalance (Transfer r sched db fromAddress toAddress amount).db x ≠ none →
      walletBalance db x ≠ none ∨ x = toAddress) := by
  refine ⟨?_, ?_, ?_, ?_⟩
  · intro hnone
    unfold walletBalance at hnone
    refine ⟨transfer_noFail_value_none r db fromAddress toAddress amount d hp hv hnone, ?_⟩
    rcases transfer_shape r noFail db fromAddress toAddress amount _ rfl with
      ⟨_, hdb⟩ | ⟨d2, b2, _, _, hb2, _, _, _⟩
    · exact hdb
    · rw [hnone] at hb2
      exact Option.noConfusion hb2
  · intro b hbw
    unfold walletBalance at hbw
    have hval := transfer_noFail_value_some r db fromAddress toAddress amount d b hp hv hbw
    intro hcon
    rw [hcon] at hval
    by_cases h1 : b < d.toRat
    · rw [if_pos h1] at hval
      exact absurd hval (by simp)
    · rw [if_neg h1] at hval
      by_cases h2 : fromAddress = toAddress ∨ 0 ≤ (db "wallets" toAddress).getD 0 + d.toRat
      · rw [if_pos h2] at hval
        exact absurd hval (by simp)
      · rw [if_neg h2] at hval
        exact absurd hval (by simp)
  · intro hnone v hok
    unfold walletBalance at hnone
    rcases transfer_shape r noFail db fromAddress toAddress amount _ rfl with
      ⟨⟨e, herr⟩, _⟩ | ⟨d2, b2, hp2, _, hb2, _, hokv, hptw⟩
    · rw [hok] at herr
      exact absurd herr (by simp)
    · have hne : fromAddress ≠ toAddress := by
        intro heq
        rw [heq, hnone] at hb2
        exact Option.noConfusion hb2
      rw [hp] at hp2
      injection hp2 with h4
      unfold walletBalance
      rw [hptw, if_pos ⟨rfl, hne⟩, if_neg (fun hx => hne hx.symm), if_pos rfl, hnone,
        Option.getD_none, zero_add, ← h4]
  · intro sched x hx
    rcases transfer_shape r sched db fromAddress toAddress amount _ rfl with
      ⟨_, hdb⟩ | ⟨d2, b2, _, _, hb2, _, _, hptw⟩
    · unfold walletBalance at hx ⊢
      rw [hdb] at hx
      exact Or.inl hx
    · unfold walletBalance at hx ⊢
      rw [hptw] at hx
      by_cases hc : ("wallets" : String) = "wallets" ∧ fromAddress ≠ toAddress
      · rw [if_pos hc] at hx
        by_cases hxf : x = fromAddress
        · refine Or.inl ?_
          rw [hxf, hb2]
          exact fun hcon => Option.noConfusion hcon
        · rw [if_neg hxf] at hx
          by_cases hxt : x = toAddress
          · exact Or.inr hxt
          · rw [if_neg hxt] at hx
            exact Or.inl hx
      · rw [if_neg hc] at hx
        exact Or.inl hx

/-- Witness for C5 at a concrete call whose sender has no row. -/
theorem c5_existence_asymmetry_witness :
    (Transfer r0 noFail dbA10 addrB addrA "1").value = .error .noRows ∧
    (Transfer r0 noFail dbA10 addrB addrA "1").db = dbA10 :=
  (c5_existence_asymmetry r0 dbA10 addrB addrA "1" ⟨1, 0⟩ (by decide)
    (by with_unfolding_all decide)).1 (by decide)

/-- C10: a transfer whose sender and recipient are the identical raw
address, with an existing account and sufficient balance, succeeds; the
committed stored balance is unchanged, while the returned value is the
prior balance minus the amount — which differs from the stored balance. -/
theorem c10_same_address (r : Resolver) (db : DB) (addr amount : String) (d : Dec) (b : Rat)
    (hp : NewFromString amount = some d)
    (hv : validateTokenAmount amount = .ok ())
    (hb : walletBalance db addr = some b)
    (hba : d.toRat ≤ b) :
    (Transfer r noFail db addr addr amount).value = .ok (b - d.toRat) ∧
    walletBalance (Transfer r noFail db addr addr amount).db addr = some b ∧
    b - d.toRat ≠ b := by
  unfold walletBalance at hb
  have hval := transfer_noFail_value_some r db addr addr amount d b hp hv hb
  rw [if_neg (not_lt.mpr hba), if_pos (Or.inl rfl)] at hval
  refine ⟨hval, ?_, ?_⟩
  · rcases transfer_shape r noFail db addr addr amount _ rfl with
      ⟨⟨e, herr⟩, _⟩ | ⟨d2, b2, hp2, _, hb2, _, hokv, hptw⟩
    · rw [herr] at hval
      exact absurd hval (by simp)
    · unfold walletBalance
      rw [hptw, if_neg (fun hc => hc.2 rfl)]
      exact hb
  · have ha := validate_pos hp hv
    intro hcon
    have h0 : d.toRat = 0 := by linarith
    linarith

/-- Witness for C10 at a concrete same-address transfer. -/
theorem c10_same_address_witness :
    (Transfer r0 noFail dbA10 addrA addrA "1").value = .ok ((10 : Rat) - (⟨1, 0⟩ : Dec).toRat) ∧
    walletBalance (Transfer r0 noFail dbA10 addrA addrA "1").db addrA = some 10 ∧
    (10 : Rat) - (⟨1, 0⟩ : Dec).toRat ≠ 10 :=
  c10_same_address r0 dbA10 addrA "1" ⟨1, 0⟩ 10 (by decide) (by with_unfolding_all decide)
    (by with_unfolding_all decide) (by with_unfolding_all decide)


/-- A resolver configured, like the test suite, with the test table. -/
def rT : Resolver := ⟨"test_wallets"⟩

/-- C6 evaluation at the failing input: two raw addresses differing only
in the letter case of a hex digit are treated as distinct accounts — the
transfer proceeds past validation and locking, creates the lower-case
address as a fresh row, commits the movement, and returns no SameAddress
error of any kind. -/
theorem c6_case_insensitive_eval :
    (Transfer r0 noFail dbA10 addrA addrALower "1").value = .ok 9 ∧
    walletBalance (Transfer r0 noFail dbA10 addrA addrALower "1").db addrALower = some 1 ∧
    walletBalance (Transfer r0 noFail dbA10 addrA addrALower "1").db addrA = some 9 := by
  with_unfolding_all decide

/-- C7 evaluation at the failing input: a recipient string with only 39
hex characters after the 0x prefix is not rejected — the transfer
succeeds and a row keyed by the malformed address is created and
credited. -/
theorem c7_invalid_address_eval :
    (Transfer r0 noFail dbA10 addrA addrShort "1").value = .ok 9 ∧
    walletBalance (Transfer r0 noFail dbA10 addrA addrShort "1").db addrShort = some 1 := by
  with_unfolding_all decide

/-- C8 evaluation at the failing input: with the resolver configured for
the `test_wallets` table, a transfer reads and updates only the hard-coded
`wallets` table (the sender row there drops from 10 to 9 while its
`test_wallets` row stays at 5), every table-scoped statement issued names
`wallets`, and the balance reader likewise reads `wallets`. -/
theorem c8_hardcoded_table_eval :
    (Transfer rT noFail dbC8 addrA addrB "1").value = .ok 9 ∧
    (Transfer rT noFail dbC8 addrA addrB "1").db "wallets" addrA = some 9 ∧
    (Transfer rT noFail dbC8 addrA addrB "1").db "test_wallets" addrA = some 5 ∧
    (Transfer rT noFail dbC8 addrA addrB "1").events.filterMap Event.tableOf
      = ["wallets", "wallets", "wallets", "wallets"] ∧
    (queryWallet rT dbC8 addrA).2 = [.readEv "wallets" addrA] ∧
    (queryWallet rT dbC8 addrA).1 = .ok ⟨addrA, 10⟩ := by
  with_unfolding_all decide

/-- C9: Amount boundary precision — exactly 18 fractional digits are
accepted and 19 rejected as too many decimal places; exactly 28
significant digits are accepted and 29 rejected as too many digits; an
unparsable string is rejected as an invalid decimal amount and a
non-positive value as not greater than zero; and every validation failure
surfaces before any lock or statement is issued, with the committed state
untouched. -/
theorem c9_amount_boundaries :
    validateTokenAmount "0.123456789012345678" = .ok () ∧
    validateTokenAmount "0.1234567890123456789" = .error .tooManyDecimalPlaces ∧
    validateTokenAmount "1234567890123456789012345678" = .ok () ∧
    validateTokenAmount "12345678901234567890123456789" = .error .tooManyDigits ∧
    validateTokenAmount "abc123" = .error .invalidDecimalAmount ∧
    validateTokenAmount "-12" = .error .nonPositiveAmount ∧
    validateTokenAmount "0" = .error .nonPositiveAmount ∧
    ∀ (r : Resolver) (db : DB) (fromAddress toAddress amount : String) (e : Err),
      validateTokenAmount amount = .error e →
      (Transfer r noFail db fromAddress toAddress amount).value = .error e ∧
      (Transfer r noFail db fromAddress toAddress amount).db = db ∧
      (Transfer r noFail db fromAddress toAddress amount).events = [] := by
  refine ⟨by with_unfolding_all decide, by with_unfolding_all decide,
    by with_unfolding_all decide, by with_unfolding_all decide,
    by with_unfolding_all decide, by with_unfolding_all decide,
    by with_unfolding_all decide, ?_⟩
  intro r db fromAddress toAddress amount e hval
  simp only [Transfer, noFail_beginFail, Bool.false_eq_true, if_false, hval]
  exact ⟨trivial, trivial, trivial⟩

/-- Witness for C9's fail-fast clause at a concrete unparsable amount. -/
theorem c9_amount_boundaries_witness :
    (Transfer r0 noFail dbA10 addrA addrB "abc123").value = .error .invalidDecimalAmount ∧
    (Transfer r0 noFail dbA10 addrA addrB "abc123").db = dbA10 ∧
    (Transfer r0 noFail dbA10 addrA addrB "abc123").events = [] :=
  c9_amount_boundaries.2.2.2.2.2.2.2 r0 dbA10 addrA addrB "abc123" .invalidDecimalAmount
    (by with_unfolding_all decide)

end TokenTransfer
